import Mathlib

/-!
# Verification of the Room membership model of `near-you`

Shallow embedding of the Room membership & permission model:
`src/server/models/Room.js` (the `Room` mongoose schema and its instance
methods) and `src/server/routes/rooms.js` (the create / join / leave route
handlers).  Users are identified by their Mongo object id, modelled as `Nat`;
timestamps (`Date`) are modelled as `Nat`; `Math.random`-driven character
draws are modelled by an explicit stream `rand : Nat → Nat`.
-/

namespace NearYou

/-- Participant roles (`roomSchema.participants.role` enum,
`['owner', 'admin', 'moderator', 'participant']`). -/
inductive Role where
  | owner
  | admin
  | moderator
  | participant
deriving DecidableEq, Repr

/-- Room access types (`roomSchema.type` enum,
`['public', 'private', 'password-protected']`). -/
inductive RoomType where
  | publicRoom
  | privateRoom
  | passwordProtected
deriving DecidableEq, Repr

/-- A participant's boolean permission set
(`roomSchema.participants.permissions`). -/
structure Permissions where
  canMute : Bool
  canUnmute : Bool
  canShareScreen : Bool
  canChat : Bool
  canRecord : Bool
  canKick : Bool
deriving DecidableEq, Repr

/-- Schema defaults for a fresh participant's permission set. -/
def defaultPermissions : Permissions :=
  { canMute := true
    canUnmute := true
    canShareScreen := true
    canChat := true
    canRecord := false
    canKick := false }

/-- Per-participant usage stats (`roomSchema.participants.stats`). -/
structure PStats where
  totalTime : Nat
  lastSeen : Nat
deriving DecidableEq, Repr

/-- One entry of the embedded `participants` array. `leftAt` is a nullable
date (`none` models JS `null`). -/
structure Participant where
  user : Nat
  role : Role
  joinedAt : Nat
  leftAt : Option Nat
  isActive : Bool
  permissions : Permissions
  stats : PStats
deriving DecidableEq, Repr

/-- Room-level stats (`roomSchema.stats`); only the fields the operations
touch are carried. -/
structure RoomStats where
  totalSessions : Nat
  totalParticipants : Nat
  totalDuration : Nat
  lastActivity : Nat
deriving DecidableEq, Repr

/-- The `Room` document.  Fields not read or written by the operations under
verification (description, settings, invitations, sessions, tags, category,
recording flags) are omitted; `password` is the stored credential
(`none` models an absent field, as when `type !== 'password-protected'`). -/
structure Room where
  name : String
  roomId : String
  owner : Nat
  type : RoomType
  password : Option String
  maxParticipants : Nat
  isActive : Bool
  participants : List Participant
  stats : RoomStats
deriving DecidableEq, Repr

/-- Virtual `currentParticipantsCount`:
`this.participants.filter(p => p.isActive).length`. -/
def currentParticipantsCount (r : Room) : Nat :=
  (r.participants.filter (fun p => p.isActive)).length

/-- Update the first element satisfying `p` with `f`, leaving the rest
unchanged.  This models the JS idiom of `array.find(...)` followed by
in-place mutation of the found element. -/
def updateFirst (p : α → Bool) (f : α → α) : List α → List α
  | [] => []
  | x :: xs => if p x then f x :: xs else x :: updateFirst p f xs

/-- Reactivation of an existing participant record, the `if (existingParticipant)`
branch of `addParticipant`: `isActive = true; leftAt = null; stats.lastSeen = now`. -/
def reactivate (now : Nat) (p : Participant) : Participant :=
  { p with isActive := true, leftAt := none, stats := { p.stats with lastSeen := now } }

/-- A fresh participant record as pushed by `addParticipant`
(`{ user, role, joinedAt: new Date(), isActive: true }` plus schema defaults). -/
def freshParticipant (userId : Nat) (role : Role) (now : Nat) : Participant :=
  { user := userId
    role := role
    joinedAt := now
    leftAt := none
    isActive := true
    permissions := defaultPermissions
    stats := { totalTime := 0, lastSeen := now } }

/-- `roomSchema.methods.addParticipant(userId, role = 'participant')`:
if a record for `userId` exists (active or not) it is reactivated, otherwise
a new record is appended; `stats.lastActivity` is refreshed either way. -/
def addParticipant (r : Room) (userId : Nat) (role : Role) (now : Nat) : Room :=
  let ps :=
    if r.participants.any (fun p => p.user == userId) then
      updateFirst (fun p => p.user == userId) (reactivate now) r.participants
    else
      r.participants ++ [freshParticipant userId role now]
  { r with participants := ps, stats := { r.stats with lastActivity := now } }

/-- `roomSchema.methods.removeParticipant(userId)`: if a record for `userId`
exists (again regardless of `isActive`), set `isActive = false`,
`leftAt = new Date()` and refresh `stats.lastActivity`; otherwise nothing
is modified. -/
def removeParticipant (r : Room) (userId : Nat) (now : Nat) : Room :=
  if r.participants.any (fun p => p.user == userId) then
    { r with
      participants :=
        updateFirst (fun p => p.user == userId)
          (fun p => { p with isActive := false, leftAt := some now }) r.participants
      stats := { r.stats with lastActivity := now } }
  else
    r

/-- `roomSchema.methods.isParticipant(userId)`: an *active* record exists. -/
def isParticipant (r : Room) (userId : Nat) : Bool :=
  r.participants.any (fun p => p.user == userId && p.isActive)

/-- Names of the boolean permission flags. -/
inductive PermName where
  | canMute
  | canUnmute
  | canShareScreen
  | canChat
  | canRecord
  | canKick
deriving DecidableEq, Repr

/-- Dynamic flag lookup, `participant.permissions[permission]`. -/
def Permissions.get (ps : Permissions) : PermName → Bool
  | .canMute => ps.canMute
  | .canUnmute => ps.canUnmute
  | .canShareScreen => ps.canShareScreen
  | .canChat => ps.canChat
  | .canRecord => ps.canRecord
  | .canKick => ps.canKick

/-- `roomSchema.methods.hasPermission(userId, permission)`: find the *active*
record for `userId`; absent ⇒ `false`; role `owner` ⇒ `true`; otherwise the
stored flag (`|| false`). -/
def hasPermission (r : Room) (userId : Nat) (perm : PermName) : Bool :=
  match r.participants.find? (fun p => p.user == userId && p.isActive) with
  | none => false
  | some p => if p.role = Role.owner then true else p.permissions.get perm

/-- The alphabet of `generateRoomId`. -/
def roomIdChars : List Char := "ABCDEFGHIJKLMNOPQRSTUVWXYZ0123456789".toList

/-- `roomSchema.methods.generateRoomId()`: eight characters drawn from the
36-symbol alphabet; the `i`-th draw `Math.floor(Math.random() * chars.length)`
is modelled by `rand i % 36`.  Note the method consults no store and performs
no collision check or retry. -/
def generateRoomId (rand : Nat → Nat) : String :=
  String.mk ((List.range 8).map (fun i => roomIdChars.getD (rand i % 36) 'A'))

/-! ## Route handlers (`src/server/routes/rooms.js`) -/

/-- Outcomes of `POST /api/rooms/:roomId/join` other than success.
`internalTypeError` models the `TypeError` raised at rooms.js:329:
`room.comparePassword(password)` is called there, but `comparePassword`
is defined only on the User schema (`userSchema.methods.comparePassword`),
never on the Room schema, so for a password-protected room with a supplied
password the call throws and `asyncHandler` turns it into a 500 response. -/
inductive JoinError where
  | roomInactive
  | roomFull
  | passwordRequired
  | internalTypeError
deriving DecidableEq, Repr

/-- The successful tail of the join handler: add the caller as a
`participant` unless an active record already exists. -/
def joinAdmit (r : Room) (userId : Nat) (now : Nat) : Room :=
  if isParticipant r userId then r else addParticipant r userId Role.participant now

/-- `POST /api/rooms/:roomId/join` on a found room: check `isActive`, then
capacity, then the password gate, then mutate the roster.  The
`room.comparePassword` call cannot return (see `JoinError.internalTypeError`),
so every supplied password on a password-protected room ends in the thrown
`TypeError` before any roster mutation. -/
def joinRoom (r : Room) (userId : Nat) (password : Option String) (now : Nat) :
    Except JoinError Room :=
  if r.isActive = false then .error .roomInactive
  else if r.maxParticipants ≤ currentParticipantsCount r then .error .roomFull
  else
    match r.type, password with
    | RoomType.passwordProtected, none => .error .passwordRequired
    | RoomType.passwordProtected, some _ => .error .internalTypeError
    | _, _ => .ok (joinAdmit r userId now)

/-- `POST /api/rooms/:roomId/leave` on a found room: unconditionally
`removeParticipant` — never an error. -/
def leaveRoom (r : Room) (userId : Nat) (now : Nat) : Room :=
  removeParticipant r userId now

/-- One HTTP request against a room, for reasoning about sequences of
sequential Join/Leave calls. -/
inductive Op where
  | join (userId : Nat) (password : Option String) (now : Nat)
  | leave (userId : Nat) (now : Nat)

/-- Effect of one request on the stored room: a failed join commits nothing. -/
def applyOp (r : Room) : Op → Room
  | .join u pw now =>
      match joinRoom r u pw now with
      | .ok r' => r'
      | .error _ => r
  | .leave u now => leaveRoom r u now

/-- Effect of a sequence of sequential requests. -/
def applyOps (r : Room) (ops : List Op) : Room :=
  ops.foldl applyOp r

/-! ## Room creation (`POST /api/rooms`) -/

/-- The request body fields of `POST /api/rooms` that the handler reads
(description, tags, category and settings are omitted: the claims do not
touch them).  Defaults `type = 'public'`, `maxParticipants = 50` are the
caller's to apply. -/
structure CreateRoomInput where
  name : String
  type : RoomType
  password : Option String
  maxParticipants : Nat
  ownerId : Nat
deriving DecidableEq, Repr

/-- Outcomes of `POST /api/rooms` other than success. -/
inductive CreateRoomError where
  | validationFailed
  | invalidRoomName
  | roomNameExists
deriving DecidableEq, Repr

/-- `createRoomValidation` (express-validator), restricted to the modelled
fields: `name` trimmed length in [3,100]; `password` *optional* with min
length 4 when present (note: required for no room type); `maxParticipants`
an integer in [1,1000]. -/
def createRoomValidation (i : CreateRoomInput) : Bool :=
  3 ≤ i.name.length && i.name.length ≤ 100 &&
  (match i.password with
   | none => true
   | some pw => 4 ≤ pw.length) &&
  1 ≤ i.maxParticipants && i.maxParticipants ≤ 1000

/-- `livekitService.validateRoomName`: non-empty, matches `^[a-zA-Z0-9_-]+$`,
length at most 64. -/
def isRoomNameChar (c : Char) : Bool :=
  ('a' ≤ c && c ≤ 'z') || ('A' ≤ c && c ≤ 'Z') || ('0' ≤ c && c ≤ '9') ||
  c == '_' || c == '-'

/-- `livekitService.validateRoomName(roomName)`. -/
def validateRoomName (name : String) : Bool :=
  name.length != 0 && name.toList.all isRoomNameChar && name.length ≤ 64

/-- The room document built by the `POST /api/rooms` handler before the
owner auto-join: `password` is stored only when `type === 'password-protected'`
(and is whatever the caller supplied there — possibly absent), `roomId`
comes from the `pre('save')` hook calling `generateRoomId`. -/
def newRoomDoc (i : CreateRoomInput) (rand : Nat → Nat) : Room :=
  { name := i.name
    roomId := generateRoomId rand
    owner := i.ownerId
    type := i.type
    password :=
      match i.type with
      | RoomType.passwordProtected => i.password
      | _ => none
    maxParticipants := i.maxParticipants
    isActive := true
    participants := []
    stats := { totalSessions := 0, totalParticipants := 0, totalDuration := 0,
               lastActivity := 0 } }

/-- `POST /api/rooms` against a store of existing rooms: express-validator,
then the LiveKit name check, then the global `Room.findOne({ name })`
duplicate-name check, then create the room and auto-join the owner with
role `owner`. -/
def createRoom (store : List Room) (i : CreateRoomInput) (rand : Nat → Nat)
    (now : Nat) : Except CreateRoomError (Room × List Room) :=
  if createRoomValidation i = false then .error .validationFailed
  else if validateRoomName i.name = false then .error .invalidRoomName
  else if store.any (fun r => r.name == i.name) then .error .roomNameExists
  else
    let room := addParticipant (newRoomDoc i rand) i.ownerId Role.owner now
    .ok (room, store ++ [room])

/-! ## Generic lemmas about `updateFirst` -/

variable {α : Type} {β : Type}

theorem updateFirst_length (p : α → Bool) (f : α → α) (l : List α) :
    (updateFirst p f l).length = l.length := by
  induction l with
  | nil => rfl
  | cons x xs ih =>
    simp only [updateFirst]
    by_cases hx : p x <;> simp [hx, ih]

theorem updateFirst_congr (p : α → Bool) (f g : α → α) (l : List α)
    (h : ∀ x, p x = true → f x = g x) :
    updateFirst p f l = updateFirst p g l := by
  induction l with
  | nil => rfl
  | cons x xs ih =>
    simp only [updateFirst]
    by_cases hx : p x
    · simp [hx, h x hx]
    · simp [hx, ih]

theorem map_updateFirst_congr (p : α → Bool) (f g : α → α) (proj : α → β) (l : List α)
    (h : ∀ x, p x = true → proj (f x) = proj (g x)) :
    (updateFirst p f l).map proj = (updateFirst p g l).map proj := by
  induction l with
  | nil => rfl
  | cons x xs ih =>
    simp only [updateFirst]
    by_cases hx : p x
    · simp [hx, h x hx]
    · simp [hx, ih]

theorem map_updateFirst (p : α → Bool) (f : α → α) (proj : α → β) (l : List α)
    (h : ∀ x, p x = true → proj (f x) = proj x) :
    (updateFirst p f l).map proj = l.map proj := by
  induction l with
  | nil => rfl
  | cons x xs ih =>
    simp only [updateFirst]
    by_cases hx : p x
    · simp [hx, h x hx]
    · simp [hx, ih]

theorem any_updateFirst (p q : α → Bool) (f : α → α) (l : List α)
    (h : ∀ x, q (f x) = q x) :
    (updateFirst p f l).any q = l.any q := by
  induction l with
  | nil => rfl
  | cons x xs ih =>
    simp only [updateFirst]
    by_cases hx : p x
    · simp [hx, h x]
    · simp [hx, ih]

theorem updateFirst_updateFirst (p : α → Bool) (f g : α → α) (l : List α)
    (h : ∀ x, p x = true → p (g x) = true) :
    updateFirst p f (updateFirst p g l) = updateFirst p (fun x => f (g x)) l := by
  induction l with
  | nil => rfl
  | cons x xs ih =>
    simp only [updateFirst]
    by_cases hx : p x
    · simp [updateFirst, hx, h x hx]
    · simp [updateFirst, hx, ih]

theorem find?_updateFirst (p : α → Bool) (f : α → α) (l : List α)
    (h : ∀ x, p x = true → p (f x) = true) :
    (updateFirst p f l).find? p = (l.find? p).map f := by
  induction l with
  | nil => rfl
  | cons x xs ih =>
    simp only [updateFirst]
    by_cases hx : p x
    · simp [List.find?_cons, hx, h x hx]
    · simp [List.find?_cons, hx, ih]

theorem map_find?_updateFirst (p q : α → Bool) (f : α → α) (proj : α → β) (l : List α)
    (hq : ∀ x, q (f x) = q x) (hproj : ∀ x, proj (f x) = proj x) :
    ((updateFirst p f l).find? q).map proj = (l.find? q).map proj := by
  induction l with
  | nil => rfl
  | cons x xs ih =>
    simp only [updateFirst]
    by_cases hp : p x
    · rw [if_pos hp]
      by_cases hx : q x
      · rw [List.find?_cons_of_pos _ ((hq x).trans hx), List.find?_cons_of_pos _ hx]
        simp [hproj]
      · rw [List.find?_cons_of_neg _ (by rw [hq x]; simpa using hx),
          List.find?_cons_of_neg _ (by simpa using hx)]
    · rw [if_neg hp]
      by_cases hx : q x
      · rw [List.find?_cons_of_pos _ hx, List.find?_cons_of_pos _ hx]
      · rw [List.find?_cons_of_neg _ (by simpa using hx),
          List.find?_cons_of_neg _ (by simpa using hx)]
        exact ih

theorem length_filter_updateFirst_le (p q : α → Bool) (f : α → α) (l : List α) :
    ((updateFirst p f l).filter q).length ≤ (l.filter q).length + 1 := by
  induction l with
  | nil => simp [updateFirst]
  | cons x xs ih =>
    simp only [updateFirst]
    by_cases hp : p x
    · by_cases h1 : q (f x) <;> by_cases h2 : q x <;>
        simp [List.filter_cons, hp, h1, h2] <;> omega
    · by_cases h2 : q x <;> simp [List.filter_cons, hp, h2] <;> omega

theorem length_filter_updateFirst_le_of_false (p q : α → Bool) (f : α → α) (l : List α)
    (hf : ∀ x, q (f x) = false) :
    ((updateFirst p f l).filter q).length ≤ (l.filter q).length := by
  induction l with
  | nil => simp [updateFirst]
  | cons x xs ih =>
    simp only [updateFirst]
    by_cases hp : p x
    · by_cases h2 : q x <;> simp [List.filter_cons, hp, h2, hf] <;> omega
    · by_cases h2 : q x <;> simp [List.filter_cons, hp, h2] <;> omega

theorem not_mem_map_of_any_false (l : List Participant) (u : Nat)
    (h : l.any (fun p => p.user == u) = false) :
    u ∉ l.map (fun p => p.user) := by
  intro hmem
  rcases List.mem_map.mp hmem with ⟨p, hp, hpu⟩
  have hall := List.any_eq_false.mp h p hp
  simp [hpu] at hall

theorem length_filter_le_one_of_nodup (l : List Participant) (v : Nat)
    (q : Participant → Bool) (h : (l.map (fun p => p.user)).Nodup) :
    (l.filter (fun p => p.user == v && q p)).length ≤ 1 := by
  induction l with
  | nil => simp
  | cons x xs ih =>
    simp only [List.map_cons, List.nodup_cons] at h
    obtain ⟨hx, hxs⟩ := h
    by_cases hv : x.user == v
    · have hxu : x.user = v := by simpa using hv
      have hnil : xs.filter (fun p => p.user == v && q p) = [] := by
        rw [List.filter_eq_nil_iff]
        intro p hp
        have hpu : p.user ≠ v := by
          intro hpv
          exact hx (hxu ▸ hpv ▸ List.mem_map_of_mem (fun p => p.user) hp)
        simp [hpu]
      by_cases hq : q x <;> simp [List.filter_cons, hv, hq, hnil]
    · have hv2 : (x.user == v && q x) = false := by
        simp [hv]
      rw [List.filter_cons, if_neg (by simp [hv2])]
      exact ih hxs

/-! ## Room-level lemmas -/

/-- The projection of a participant record onto everything except the two
fields `removeParticipant` writes (`isActive`, `leftAt`). -/
def frameProj (p : Participant) : Nat × Role × Nat × Permissions × PStats :=
  (p.user, p.role, p.joinedAt, p.permissions, p.stats)

/-- Projection keeping everything except `leftAt` (what a *second* leave can
still rewrite). -/
def frameProjL (p : Participant) : Nat × Role × Nat × Bool × Permissions × PStats :=
  (p.user, p.role, p.joinedAt, p.isActive, p.permissions, p.stats)

/-- The role recorded for a user, active or not (`none` if no record). -/
def roleOf (r : Room) (u : Nat) : Option Role :=
  (r.participants.find? (fun p => p.user == u)).map (fun p => p.role)

/-- The `leftAt` field of the user's record (`none` if no record). -/
def leftAtOf (r : Room) (u : Nat) : Option (Option Nat) :=
  (r.participants.find? (fun p => p.user == u)).map (fun p => p.leftAt)

/-- The list of user ids on the roster, duplicates included. -/
def participantUsers (r : Room) : List Nat :=
  r.participants.map (fun p => p.user)

theorem addParticipant_maxParticipants (r : Room) (u : Nat) (role : Role) (now : Nat) :
    (addParticipant r u role now).maxParticipants = r.maxParticipants := rfl

theorem addParticipant_password (r : Room) (u : Nat) (role : Role) (now : Nat) :
    (addParticipant r u role now).password = r.password := rfl

theorem addParticipant_type (r : Room) (u : Nat) (role : Role) (now : Nat) :
    (addParticipant r u role now).type = r.type := rfl

theorem joinAdmit_maxParticipants (r : Room) (u : Nat) (now : Nat) :
    (joinAdmit r u now).maxParticipants = r.maxParticipants := by
  unfold joinAdmit; split <;> rfl

theorem joinAdmit_password (r : Room) (u : Nat) (now : Nat) :
    (joinAdmit r u now).password = r.password := by
  unfold joinAdmit; split <;> rfl

theorem joinAdmit_type (r : Room) (u : Nat) (now : Nat) :
    (joinAdmit r u now).type = r.type := by
  unfold joinAdmit; split <;> rfl

theorem removeParticipant_maxParticipants (r : Room) (u : Nat) (now : Nat) :
    (removeParticipant r u now).maxParticipants = r.maxParticipants := by
  unfold removeParticipant; split <;> rfl

theorem removeParticipant_password (r : Room) (u : Nat) (now : Nat) :
    (removeParticipant r u now).password = r.password := by
  unfold removeParticipant; split <;> rfl

theorem removeParticipant_type (r : Room) (u : Nat) (now : Nat) :
    (removeParticipant r u now).type = r.type := by
  unfold removeParticipant; split <;> rfl

/-- Inversion of a successful join: the room was active, below capacity, and
the result is exactly the `joinAdmit` mutation. -/
theorem joinRoom_ok (r : Room) (u : Nat) (pw : Option String) (now : Nat) (r2 : Room)
    (h : joinRoom r u pw now = Except.ok r2) :
    r2 = joinAdmit r u now ∧ r.isActive = true ∧
      currentParticipantsCount r < r.maxParticipants := by
  unfold joinRoom at h
  split at h
  · exact absurd h (by simp)
  next h1 =>
    split at h
    · exact absurd h (by simp)
    next h2 =>
      refine ⟨?_, by revert h1; cases r.isActive <;> simp, Nat.lt_of_not_le h2⟩
      split at h
      · exact absurd h (by simp)
      · exact absurd h (by simp)
      · injection h with h3; exact h3.symm

/-- A failed join commits nothing (the handler returns before any roster
mutation). -/
theorem applyOp_join_error (r : Room) (u : Nat) (pw : Option String) (now : Nat)
    (e : JoinError) (h : joinRoom r u pw now = Except.error e) :
    applyOp r (Op.join u pw now) = r := by
  simp only [applyOp, h]

theorem currentParticipantsCount_joinAdmit_le (r : Room) (u : Nat) (now : Nat) :
    currentParticipantsCount (joinAdmit r u now) ≤ currentParticipantsCount r + 1 := by
  unfold joinAdmit
  split
  · omega
  · show currentParticipantsCount (addParticipant r u Role.participant now) ≤ _
    simp only [addParticipant, currentParticipantsCount]
    split
    · exact length_filter_updateFirst_le _ _ _ _
    · simp [List.filter_append, freshParticipant]

theorem currentParticipantsCount_leaveRoom_le (r : Room) (u : Nat) (now : Nat) :
    currentParticipantsCount (leaveRoom r u now) ≤ currentParticipantsCount r := by
  unfold leaveRoom removeParticipant
  split
  · exact length_filter_updateFirst_le_of_false _ _ _ _ (fun x => rfl)
  · exact Nat.le_refl _

theorem leaveRoom_maxParticipants (r : Room) (u : Nat) (now : Nat) :
    (leaveRoom r u now).maxParticipants = r.maxParticipants :=
  removeParticipant_maxParticipants r u now

theorem applyOp_maxParticipants (r : Room) (op : Op) :
    (applyOp r op).maxParticipants = r.maxParticipants := by
  cases op with
  | join u pw now =>
    simp only [applyOp]
    split
    · next r2 heq =>
      rcases joinRoom_ok r u pw now r2 heq with ⟨h2, -, -⟩
      rw [h2, joinAdmit_maxParticipants]
    · rfl
  | leave u now => exact leaveRoom_maxParticipants r u now

theorem applyOp_password (r : Room) (op : Op) :
    (applyOp r op).password = r.password := by
  cases op with
  | join u pw now =>
    simp only [applyOp]
    split
    · next r2 heq =>
      rcases joinRoom_ok r u pw now r2 heq with ⟨h2, -, -⟩
      rw [h2, joinAdmit_password]
    · rfl
  | leave u now => exact removeParticipant_password r u now

theorem applyOp_type (r : Room) (op : Op) :
    (applyOp r op).type = r.type := by
  cases op with
  | join u pw now =>
    simp only [applyOp]
    split
    · next r2 heq =>
      rcases joinRoom_ok r u pw now r2 heq with ⟨h2, -, -⟩
      rw [h2, joinAdmit_type]
    · rfl
  | leave u now => exact removeParticipant_type r u now

/-- Invariant-preservation combinator for request sequences. -/
theorem applyOps_induction (P : Room → Prop)
    (hstep : ∀ r op, P r → P (applyOp r op)) :
    ∀ (ops : List Op) (r : Room), P r → P (applyOps r ops) := by
  intro ops
  induction ops with
  | nil => intro r h; exact h
  | cons op ops ih =>
    intro r h
    exact ih (applyOp r op) (hstep r op h)

/-- The `participants` field written by `addParticipant`, as an equation. -/
theorem addParticipant_participants (r : Room) (u : Nat) (role : Role) (now : Nat) :
    (addParticipant r u role now).participants
      = if r.participants.any (fun p => p.user == u) then
          updateFirst (fun p => p.user == u) (reactivate now) r.participants
        else r.participants ++ [freshParticipant u role now] := rfl

/-- The `participants` field written by `removeParticipant`, as an equation. -/
theorem removeParticipant_participants (r : Room) (u : Nat) (now : Nat) :
    (removeParticipant r u now).participants
      = if r.participants.any (fun p => p.user == u) then
          updateFirst (fun p => p.user == u)
            (fun p => { p with isActive := false, leftAt := some now }) r.participants
        else r.participants := by
  unfold removeParticipant; split <;> simp_all

theorem leaveRoom_eq_of_any (r : Room) (u t : Nat)
    (h : r.participants.any (fun p => p.user == u) = true) :
    leaveRoom r u t = { r with
      participants := updateFirst (fun p => p.user == u)
        (fun p => { p with isActive := false, leftAt := some t }) r.participants
      stats := { r.stats with lastActivity := t } } := by
  unfold leaveRoom removeParticipant
  rw [if_pos h]

theorem leaveRoom_eq_of_not_any (r : Room) (u t : Nat)
    (h : r.participants.any (fun p => p.user == u) = false) :
    leaveRoom r u t = r := by
  unfold leaveRoom removeParticipant
  rw [if_neg (by simp [h])]

theorem find?_append_of_some (p : α → Bool) (l1 l2 : List α) (x : α)
    (h : l1.find? p = some x) : (l1 ++ l2).find? p = some x := by
  induction l1 with
  | nil => simp at h
  | cons y ys ih =>
    rw [List.cons_append]
    by_cases hy : p y
    · rw [List.find?_cons_of_pos _ hy] at h ⊢
      exact h
    · rw [List.find?_cons_of_neg _ (by simpa using hy)] at h ⊢
      exact ih h

theorem any_user_of_roleOf (r : Room) (u : Nat) (ρ : Role) (h : roleOf r u = some ρ) :
    r.participants.any (fun p => p.user == u) = true := by
  unfold roleOf at h
  cases hf : r.participants.find? (fun p => p.user == u) with
  | none => rw [hf] at h; simp at h
  | some x =>
    have hx := List.find?_some hf
    exact List.any_eq_true.mpr ⟨x, List.mem_of_find?_eq_some hf, hx⟩

theorem roleOf_leaveRoom (r : Room) (u v t : Nat) :
    roleOf (leaveRoom r v t) u = roleOf r u := by
  unfold roleOf leaveRoom
  rw [removeParticipant_participants]
  split
  · exact map_find?_updateFirst _ _ _ _ _ (fun x => rfl) (fun x => rfl)
  · rfl

theorem roleOf_addParticipant (r : Room) (w u : Nat) (role : Role) (now : Nat) (ρ : Role)
    (h : roleOf r u = some ρ) : roleOf (addParticipant r w role now) u = some ρ := by
  unfold roleOf at h ⊢
  rw [addParticipant_participants]
  split
  · rw [map_find?_updateFirst (fun p => p.user == w) (fun p => p.user == u)
      (reactivate now) (fun p => p.role) r.participants (fun x => rfl) (fun x => rfl)]
    exact h
  · cases hf : r.participants.find? (fun p => p.user == u) with
    | none => rw [hf] at h; simp at h
    | some x =>
      rw [find?_append_of_some _ _ _ _ hf]
      rw [hf] at h
      exact h

theorem roleOf_applyOp (r : Room) (op : Op) (u : Nat) (ρ : Role)
    (h : roleOf r u = some ρ) : roleOf (applyOp r op) u = some ρ := by
  cases op with
  | join w pw now =>
    simp only [applyOp]
    split
    · next r2 heq =>
      rcases joinRoom_ok r w pw now r2 heq with ⟨h2, -, -⟩
      rw [h2]
      unfold joinAdmit
      split
      · exact h
      · exact roleOf_addParticipant r w u Role.participant now ρ h
    · exact h
  | leave w now =>
    show roleOf (leaveRoom r w now) u = some ρ
    rw [roleOf_leaveRoom]
    exact h

/-- Inversion of a successful `POST /api/rooms`. -/
theorem createRoom_ok (store : List Room) (i : CreateRoomInput) (rand : Nat → Nat)
    (now : Nat) (room : Room) (store2 : List Room)
    (h : createRoom store i rand now = Except.ok (room, store2)) :
    room = addParticipant (newRoomDoc i rand) i.ownerId Role.owner now
    ∧ store2 = store ++ [room]
    ∧ createRoomValidation i = true
    ∧ validateRoomName i.name = true
    ∧ store.any (fun r => r.name == i.name) = false := by
  unfold createRoom at h
  split at h
  · exact absurd h (by simp)
  next hv =>
    split at h
    · exact absurd h (by simp)
    next hn =>
      split at h
      · exact absurd h (by simp)
      next hd =>
        injection h with h3
        rw [Prod.mk.injEq] at h3
        obtain ⟨hr, hs⟩ := h3
        refine ⟨hr.symm, by rw [← hs, hr], ?_, ?_, ?_⟩
        · revert hv; cases createRoomValidation i <;> simp
        · revert hn; cases validateRoomName i.name <;> simp
        · revert hd; cases store.any (fun r => r.name == i.name) <;> simp

/-! ## Concrete fixtures for witnesses and counterexamples -/

def baseStats : RoomStats :=
  { totalSessions := 0, totalParticipants := 0, totalDuration := 0, lastActivity := 0 }

def ownerRec : Participant := freshParticipant 1 Role.owner 0

/-- A public room with capacity 1 whose owner (user 1) is the sole active
participant — the state right after `CreateRoom(maxParticipants = 1)`. -/
def roomA : Room :=
  { name := "demo-room", roomId := "AAAA1111", owner := 1,
    type := RoomType.publicRoom, password := none, maxParticipants := 1,
    isActive := true, participants := [ownerRec], stats := baseStats }

/-- A password-protected room (stored password "abcd") with spare capacity. -/
def roomPP : Room :=
  { name := "secret-room", roomId := "BBBB2222", owner := 1,
    type := RoomType.passwordProtected, password := some "abcd",
    maxParticipants := 5, isActive := true, participants := [ownerRec],
    stats := baseStats }

def allTruePerms : Permissions :=
  { canMute := true, canUnmute := true, canShareScreen := true,
    canChat := true, canRecord := true, canKick := true }

def allFalsePerms : Permissions :=
  { canMute := false, canUnmute := false, canShareScreen := false,
    canChat := false, canRecord := false, canKick := false }

/-- A room whose owner has left: the owner's record (role `owner`, every
stored permission flag `true`) is inactive. -/
def roomOwnerLeft : Room :=
  { roomA with participants :=
      [{ user := 1, role := Role.owner, joinedAt := 0, leftAt := some 3,
         isActive := false, permissions := allTruePerms,
         stats := { totalTime := 0, lastSeen := 0 } }] }

/-- A room whose owner is active but with every stored permission flag
`false`. -/
def roomOwnerNoFlags : Room :=
  { roomA with participants := [{ ownerRec with permissions := allFalsePerms }] }

/-- A room already occupying the code `"AAAAAAAA"` in the store. -/
def roomColl : Room := { roomA with name := "other-room", roomId := "AAAAAAAA" }

/-- `POST /api/rooms` body: a password-protected room with no password. -/
def ppNoPwInput : CreateRoomInput :=
  { name := "secret-room", type := RoomType.passwordProtected, password := none,
    maxParticipants := 50, ownerId := 7 }

/-- The room the handler actually creates from `ppNoPwInput`. -/
def ppNoPwRoom : Room :=
  addParticipant (newRoomDoc ppNoPwInput (fun _ => 0)) 7 Role.owner 0

/-! ## Claim theorems -/

/-- C1: starting from any room whose active-participant count is within
capacity (as every freshly created room is — last conjunct), no sequence of
sequential Join/Leave requests ever pushes the count above
`maxParticipants`; a join against an active room at or above capacity fails
with `ROOM_FULL`; and a successful join adds at most one active
participant. -/
theorem capacity_invariant (r : Room) (ops : List Op)
    (hr : currentParticipantsCount r ≤ r.maxParticipants) :
    currentParticipantsCount (applyOps r ops) ≤ (applyOps r ops).maxParticipants
    ∧ (∀ u pw now, r.isActive = true →
        r.maxParticipants ≤ currentParticipantsCount r →
        joinRoom r u pw now = Except.error JoinError.roomFull)
    ∧ (∀ u pw now r2, joinRoom r u pw now = Except.ok r2 →
        currentParticipantsCount r2 ≤ currentParticipantsCount r + 1)
    ∧ (∀ store i rand now2 room store2,
        createRoom store i rand now2 = Except.ok (room, store2) →
        currentParticipantsCount room ≤ room.maxParticipants) := by
  refine ⟨?_, ?_, ?_, ?_⟩
  · refine applyOps_induction
      (fun s => currentParticipantsCount s ≤ s.maxParticipants) ?_ ops r hr
    intro s op hs
    cases op with
    | join u pw now =>
      simp only [applyOp]
      split
      · next r2 heq =>
        rcases joinRoom_ok s u pw now r2 heq with ⟨h2, -, hlt⟩
        rw [h2, joinAdmit_maxParticipants]
        exact Nat.le_trans (currentParticipantsCount_joinAdmit_le s u now) hlt
      · exact hs
    | leave u now =>
      show currentParticipantsCount (leaveRoom s u now)
        ≤ (leaveRoom s u now).maxParticipants
      rw [leaveRoom_maxParticipants]
      exact Nat.le_trans (currentParticipantsCount_leaveRoom_le s u now) hs
  · intro u pw now hact hfull
    unfold joinRoom
    rw [if_neg (by simp [hact]), if_pos hfull]
  · intro u pw now r2 h
    rcases joinRoom_ok r u pw now r2 h with ⟨h2, -, -⟩
    rw [h2]
    exact currentParticipantsCount_joinAdmit_le r u now
  · intro store i rand now2 room store2 h
    rcases createRoom_ok store i rand now2 room store2 h with ⟨hroom, -, hv, -, -⟩
    have hmax : 1 ≤ i.maxParticipants := by
      unfold createRoomValidation at hv
      simp only [Bool.and_eq_true, decide_eq_true_eq] at hv
      exact hv.1.2
    have hcount : currentParticipantsCount room = 1 := by
      rw [hroom]
      unfold currentParticipantsCount
      rw [addParticipant_participants]
      rw [if_neg (by simp [newRoomDoc])]
      simp [newRoomDoc, freshParticipant]
    have hmaxr : room.maxParticipants = i.maxParticipants := by
      rw [hroom, addParticipant_maxParticipants]
      rfl
    rw [hcount, hmaxr]
    exact hmax

/-- Witness for C1 at the `maxParticipants = 1` scenario of the spec: a
second user's join bounces, the owner leaves, the second user joins. -/
theorem capacity_invariant_witness :
    currentParticipantsCount
        (applyOps roomA [Op.join 2 none 5, Op.leave 1 6, Op.join 2 none 7])
      ≤ (applyOps roomA [Op.join 2 none 5, Op.leave 1 6, Op.join 2 none 7]).maxParticipants :=
  (capacity_invariant roomA [Op.join 2 none 5, Op.leave 1 6, Op.join 2 none 7]
    (by decide)).1

/-- C2: evaluation of the join gate at concrete rooms.  The first three
checks fire in the specified order (`ROOM_INACTIVE`, then `ROOM_FULL`, then
`PASSWORD_REQUIRED`), but the fourth cannot produce `INVALID_PASSWORD`:
`room.comparePassword` is not defined on the Room model (only
`userSchema.methods.comparePassword` exists), so a password-protected join
with *any* supplied password — correct (`"abcd"`) or wrong (`"nope"`) —
throws a `TypeError` instead, before any roster mutation. -/
theorem join_gate_order_eval :
    joinRoom { roomPP with isActive := false } 2 (some "abcd") 1
        = Except.error JoinError.roomInactive
    ∧ joinRoom { roomPP with maxParticipants := 1 } 2 (some "abcd") 1
        = Except.error JoinError.roomFull
    ∧ joinRoom roomPP 2 none 1 = Except.error JoinError.passwordRequired
    ∧ joinRoom roomPP 2 (some "abcd") 1 = Except.error JoinError.internalTypeError
    ∧ joinRoom roomPP 2 (some "nope") 1 = Except.error JoinError.internalTypeError
    ∧ applyOp roomPP (Op.join 2 (some "abcd") 1) = roomPP := by
  exact ⟨rfl, rfl, rfl, rfl, rfl, rfl⟩

/-- C3 counterexample: `generateRoomId` consults no store and performs no
retry; with the store already holding the code `"AAAAAAAA"` and a random
stream that draws index 0 eight times, it returns exactly that existing
code. -/
theorem generateRoomId_collision :
    generateRoomId (fun _ => 0) = "AAAAAAAA"
    ∧ [roomColl].any (fun r => r.roomId == generateRoomId (fun _ => 0)) = true := by
  exact ⟨rfl, by decide⟩

theorem getD_mem (l : List Char) (n : Nat) (d : Char) (hd : d ∈ l) :
    l.getD n d ∈ l := by
  rcases Nat.lt_or_ge n l.length with h | h
  · rw [List.getD_eq_getElem l d h]
    exact List.getElem_mem h
  · rw [List.getD_eq_default l d h]
    exact hd

/-- C3 amended: room-code generation does draw exactly 8 characters from
the 36-symbol alphabet A–Z, 0–9, but it never consults the store: it can
return a code already present (uniqueness is enforced only by the `unique`
index on `roomId` at save time, which rejects rather than retries). -/
theorem generateRoomId_shape (rand : Nat → Nat) :
    (generateRoomId rand).length = 8
    ∧ ∀ c ∈ (generateRoomId rand).toList, c ∈ roomIdChars := by
  constructor
  · show ((List.range 8).map
      (fun i => roomIdChars.getD (rand i % 36) 'A')).length = 8
    simp
  · intro c hc
    have hc2 : c ∈ (List.range 8).map
        (fun i => roomIdChars.getD (rand i % 36) 'A') := hc
    rcases List.mem_map.mp hc2 with ⟨i, -, hci⟩
    rw [← hci]
    exact getD_mem roomIdChars _ 'A' (by decide)

/-- Witness for C3's amended statement at a concrete random stream. -/
theorem generateRoomId_shape_witness :
    (generateRoomId (fun i => i)).length = 8
    ∧ generateRoomId (fun i => i) = "ABCDEFGH" :=
  ⟨(generateRoomId_shape (fun i => i)).1, rfl⟩

theorem participantUsers_addParticipant_nodup (r : Room) (u : Nat) (role : Role)
    (now : Nat) (h : (participantUsers r).Nodup) :
    (participantUsers (addParticipant r u role now)).Nodup := by
  unfold participantUsers at h ⊢
  rw [addParticipant_participants]
  split
  · rw [map_updateFirst (fun p => p.user == u) (reactivate now) (fun p => p.user)
      r.participants (fun x _ => rfl)]
    exact h
  next hany =>
    have hnm : u ∉ r.participants.map (fun p => p.user) :=
      not_mem_map_of_any_false r.participants u
        (by revert hany; cases r.participants.any (fun p => p.user == u) <;> simp)
    rw [List.map_append]
    refine List.Nodup.append h (List.nodup_singleton u) ?_
    intro a ha hb
    simp only [List.map_cons, List.map_nil, List.mem_singleton] at hb
    rw [show (freshParticipant u role now).user = u from rfl] at hb
    subst hb
    exact hnm ha

theorem participantUsers_removeParticipant_nodup (r : Room) (u : Nat) (now : Nat)
    (h : (participantUsers r).Nodup) :
    (participantUsers (removeParticipant r u now)).Nodup := by
  unfold participantUsers at h ⊢
  rw [removeParticipant_participants]
  split
  · rw [map_updateFirst (fun p => p.user == u)
      (fun p => { p with isActive := false, leftAt := some now }) (fun p => p.user)
      r.participants (fun x _ => rfl)]
    exact h
  · exact h

theorem participantUsers_applyOp_nodup (r : Room) (op : Op)
    (h : (participantUsers r).Nodup) : (participantUsers (applyOp r op)).Nodup := by
  cases op with
  | join u pw now =>
    simp only [applyOp]
    split
    · next r2 heq =>
      rcases joinRoom_ok r u pw now r2 heq with ⟨h2, -, -⟩
      rw [h2]
      unfold joinAdmit
      split
      · exact h
      · exact participantUsers_addParticipant_nodup r u Role.participant now h
    · exact h
  | leave u now => exact participantUsers_removeParticipant_nodup r u now h

/-- C4: from a roster with pairwise-distinct user entries (as created rooms
have), every Join/Leave sequence keeps entries distinct, so each user has at
most one active record; and the roster mutation of a Join for a user who
already has a record reactivates it in place (`isActive = true`,
`leftAt = null`, `lastSeen = now`) instead of appending a duplicate. -/
theorem rejoin_reactivates_without_duplicates (r : Room) (ops : List Op) (u : Nat)
    (role : Role) (now : Nat) (h : (participantUsers r).Nodup) :
    (participantUsers (applyOps r ops)).Nodup
    ∧ (∀ v, ((applyOps r ops).participants.filter
        (fun p => p.user == v && p.isActive)).length ≤ 1)
    ∧ (r.participants.any (fun p => p.user == u) = true →
        (addParticipant r u role now).participants.length = r.participants.length
        ∧ ((addParticipant r u role now).participants.find?
              (fun p => p.user == u)).map
              (fun p => (p.isActive, p.leftAt, p.stats.lastSeen))
          = (r.participants.find? (fun p => p.user == u)).map
              (fun _ => (true, none, now))) := by
  have hnodup := applyOps_induction (fun s => (participantUsers s).Nodup)
    participantUsers_applyOp_nodup ops r h
  refine ⟨hnodup, ?_, ?_⟩
  · intro v
    exact length_filter_le_one_of_nodup _ v _ hnodup
  · intro hany
    refine ⟨?_, ?_⟩
    · rw [addParticipant_participants, if_pos hany]
      exact updateFirst_length _ _ _
    · rw [addParticipant_participants, if_pos hany]
      rw [find?_updateFirst (fun p => p.user == u) (reactivate now) r.participants
        (fun x hx => hx)]
      cases hf : r.participants.find? (fun p => p.user == u) with
      | none =>
        rcases List.any_eq_true.mp hany with ⟨x, hmem, hpx⟩
        have hnone := List.find?_eq_none.mp hf x hmem
        simp [hpx] at hnone
      | some x => rfl

/-- Witness for C4: owner leaves, user 2 joins twice in a row. -/
theorem rejoin_reactivates_without_duplicates_witness :
    (participantUsers
      (applyOps roomA [Op.leave 1 4, Op.join 2 none 5, Op.join 2 none 6])).Nodup :=
  (rejoin_reactivates_without_duplicates roomA
    [Op.leave 1 4, Op.join 2 none 5, Op.join 2 none 6] 1 Role.participant 7
    (by decide)).1

/-- C5 counterexample: in a room whose owner has left (owner's record
inactive, every stored flag `true`), `hasPermission(room, ownerId, ·)`
returns `false` — the owner bypass applies only to the *active* record the
lookup finds. -/
theorem hasPermission_owner_cex :
    hasPermission roomOwnerLeft roomOwnerLeft.owner PermName.canMute = false := rfl

/-- C5 amended: whenever the lookup finds an *active* participant record for
the room's owner carrying role `owner`, `hasPermission` returns `true` for
every permission name, regardless of the record's stored flags; with an
inactive or absent owner record it returns `false` instead. -/
theorem hasPermission_owner_active (r : Room) (perm : PermName) (p : Participant)
    (hfind : r.participants.find? (fun q => q.user == r.owner && q.isActive) = some p)
    (hrole : p.role = Role.owner) :
    hasPermission r r.owner perm = true := by
  unfold hasPermission
  rw [hfind]
  simp [hrole]

/-- Witness for C5's amended statement: active owner, all flags `false`. -/
theorem hasPermission_owner_active_witness :
    hasPermission roomOwnerNoFlags roomOwnerNoFlags.owner PermName.canKick = true :=
  hasPermission_owner_active roomOwnerNoFlags PermName.canKick
    { ownerRec with permissions := allFalsePerms } rfl rfl

/-- C6: Leave rewrites only `isActive` and `leftAt` on participant records
(user, role, joinedAt, permissions and per-participant stats survive
unchanged, as `frameProj` records); the role of an existing record survives
every Join/Leave sequence; and the rejoin after a leave — whatever role
argument the route passes — keeps the original role and resets `leftAt` to
null. -/
theorem leave_only_flips_activity_role_sticky (r : Room) (u : Nat) (ρ : Role)
    (t1 t2 : Nat) (role2 : Role) (ops : List Op) (h : roleOf r u = some ρ) :
    (leaveRoom r u t1).participants.map frameProj = r.participants.map frameProj
    ∧ roleOf (applyOps r ops) u = some ρ
    ∧ roleOf (addParticipant (leaveRoom r u t1) u role2 t2) u = some ρ
    ∧ leftAtOf (addParticipant (leaveRoom r u t1) u role2 t2) u = some none := by
  have hrole1 : roleOf (leaveRoom r u t1) u = some ρ := by
    rw [roleOf_leaveRoom]
    exact h
  refine ⟨?_, ?_, ?_, ?_⟩
  · unfold leaveRoom
    rw [removeParticipant_participants]
    split
    · exact map_updateFirst (fun p => p.user == u)
        (fun p => { p with isActive := false, leftAt := some t1 }) frameProj
        r.participants (fun x _ => rfl)
    · rfl
  · exact applyOps_induction (fun s => roleOf s u = some ρ)
      (fun s op hs => roleOf_applyOp s op u ρ hs) ops r h
  · exact roleOf_addParticipant _ u u role2 t2 ρ hrole1
  · have hany : (leaveRoom r u t1).participants.any (fun p => p.user == u) = true :=
      any_user_of_roleOf _ u ρ hrole1
    unfold leftAtOf
    rw [addParticipant_participants, if_pos hany]
    rw [find?_updateFirst (fun p => p.user == u) (reactivate t2) _ (fun x hx => hx)]
    cases hf : (leaveRoom r u t1).participants.find? (fun p => p.user == u) with
    | none =>
      rcases List.any_eq_true.mp hany with ⟨x, hmem, hpx⟩
      have hnone := List.find?_eq_none.mp hf x hmem
      simp [hpx] at hnone
    | some x => rfl

/-- Witness for C6: the owner's role survives leaving and a stranger's
join. -/
theorem leave_only_flips_activity_role_sticky_witness :
    roleOf (applyOps roomA [Op.leave 1 4, Op.join 2 none 5]) 1 = some Role.owner :=
  (leave_only_flips_activity_role_sticky roomA 1 Role.owner 4 6 Role.participant
    [Op.leave 1 4, Op.join 2 none 5] (by decide)).2.1

/-- C7 counterexample: `removeParticipant` matches the record regardless of
`isActive`, so a second Leave one instant later overwrites `leftAt` with the
new time — the roster does change. -/
theorem leave_second_call_changes_roster_cex :
    leftAtOf (leaveRoom roomA 1 0) 1 = some (some 0)
    ∧ leftAtOf (leaveRoom (leaveRoom roomA 1 0) 1 1) 1 = some (some 1)
    ∧ leaveRoom (leaveRoom roomA 1 0) 1 1 ≠ leaveRoom roomA 1 0 :=
  ⟨rfl, rfl, by decide⟩

/-- C7 amended: a second Leave never errors; at the same timestamp it is an
exact no-op, and in general it changes nothing but the record's `leftAt`
(and the room's `lastActivity`), as `frameProjL` records; a Leave for a user
with no participant record at all leaves the room untouched. -/
theorem leave_idempotent_amended (r : Room) (u t t2 : Nat) :
    leaveRoom (leaveRoom r u t) u t = leaveRoom r u t
    ∧ (leaveRoom (leaveRoom r u t) u t2).participants.map frameProjL
        = (leaveRoom r u t).participants.map frameProjL
    ∧ (r.participants.any (fun p => p.user == u) = false → leaveRoom r u t = r) := by
  by_cases hany : r.participants.any (fun p => p.user == u) = true
  case neg =>
    have hanyf : r.participants.any (fun p => p.user == u) = false := by
      revert hany
      cases r.participants.any (fun p => p.user == u) <;> simp
    have h0 := leaveRoom_eq_of_not_any r u t hanyf
    refine ⟨?_, ?_, fun _ => h0⟩
    · rw [h0]
      exact h0
    · rw [h0, leaveRoom_eq_of_not_any r u t2 hanyf]
  case pos =>
    have h1 := leaveRoom_eq_of_any r u t hany
    have hany2 : (leaveRoom r u t).participants.any (fun p => p.user == u) = true := by
      rw [h1]
      show (updateFirst (fun p => p.user == u)
        (fun p => { p with isActive := false, leftAt := some t })
        r.participants).any (fun p => p.user == u) = true
      rw [any_updateFirst (fun p => p.user == u) (fun p => p.user == u)
        (fun p => { p with isActive := false, leftAt := some t })
        r.participants (fun x => rfl)]
      exact hany
    refine ⟨?_, ?_, ?_⟩
    · rw [leaveRoom_eq_of_any (leaveRoom r u t) u t hany2, h1]
      congr 1
      rw [updateFirst_updateFirst (fun p => p.user == u)
        (fun p => { p with isActive := false, leftAt := some t })
        (fun p => { p with isActive := false, leftAt := some t })
        r.participants (fun x hx => hx)]
    · rw [leaveRoom_eq_of_any (leaveRoom r u t) u t2 hany2, h1]
      show (updateFirst (fun p => p.user == u)
          (fun p => { p with isActive := false, leftAt := some t2 })
          (updateFirst (fun p => p.user == u)
            (fun p => { p with isActive := false, leftAt := some t })
            r.participants)).map frameProjL
        = (updateFirst (fun p => p.user == u)
            (fun p => { p with isActive := false, leftAt := some t })
            r.participants).map frameProjL
      rw [updateFirst_updateFirst (fun p => p.user == u)
        (fun p => { p with isActive := false, leftAt := some t2 })
        (fun p => { p with isActive := false, leftAt := some t })
        r.participants (fun x hx => hx)]
      exact map_updateFirst_congr (fun p => p.user == u)
        (fun x => { ({ x with isActive := false, leftAt := some t } : Participant) with
          isActive := false, leftAt := some t2 })
        (fun x => { x with isActive := false, leftAt := some t })
        frameProjL r.participants (fun x _ => rfl)
    · intro hf
      rw [hf] at hany
      exact Bool.noConfusion hany

/-- Witness for C7's amended statement: no-record Leave is untouched,
equal-time double Leave is a no-op. -/
theorem leave_idempotent_amended_witness :
    leaveRoom roomA 5 0 = roomA
    ∧ leaveRoom (leaveRoom roomA 1 0) 1 0 = leaveRoom roomA 1 0 :=
  ⟨(leave_idempotent_amended roomA 5 0 0).2.2 (by decide),
   (leave_idempotent_amended roomA 1 0 0).1⟩

/-- C8 counterexample: a password-protected CreateRoom with no supplied
password is accepted — the room is created (with no stored password)
instead of failing with a configuration error. -/
theorem createRoom_pp_without_password_cex :
    createRoom [] ppNoPwInput (fun _ => 0) 0 = Except.ok (ppNoPwRoom, [ppNoPwRoom]) := rfl

/-- C8 amended: CreateRoom does reject (validation error, creating nothing)
a `maxParticipants` outside [1,1000], a name length outside [3,100], or a
supplied password shorter than 4 characters; but a password-protected
request with *no* password passes validation and creates the room, since
the password field is merely optional (see counterexample). -/
theorem createRoom_invalid_config (store : List Room) (i : CreateRoomInput)
    (rand : Nat → Nat) (now : Nat)
    (h : i.maxParticipants < 1 ∨ 1000 < i.maxParticipants
       ∨ i.name.length < 3 ∨ 100 < i.name.length
       ∨ (∃ pw, i.password = some pw ∧ pw.length < 4)) :
    createRoom store i rand now = Except.error CreateRoomError.validationFailed
    ∧ ∀ room store2, createRoom store i rand now ≠ Except.ok (room, store2) := by
  have hval : createRoomValidation i = false := by
    unfold createRoomValidation
    rcases h with h | h | h | h | ⟨pw, hpw, hlen⟩
    · have hx : decide (1 ≤ i.maxParticipants) = false := by
        simp only [decide_eq_false_iff_not]
        omega
      simp [hx]
    · have hx : decide (i.maxParticipants ≤ 1000) = false := by
        simp only [decide_eq_false_iff_not]
        omega
      simp [hx]
    · have hx : decide (3 ≤ i.name.length) = false := by
        simp only [decide_eq_false_iff_not]
        omega
      simp [hx]
    · have hx : decide (i.name.length ≤ 100) = false := by
        simp only [decide_eq_false_iff_not]
        omega
      simp [hx]
    · rw [hpw]
      have hx : decide (4 ≤ pw.length) = false := by
        simp only [decide_eq_false_iff_not]
        omega
      simp [hx]
  have herr : createRoom store i rand now
      = Except.error CreateRoomError.validationFailed := by
    unfold createRoom
    rw [if_pos hval]
  refine ⟨herr, ?_⟩
  intro room store2 hc
  rw [herr] at hc
  exact Except.noConfusion hc

/-- A CreateRoom body with `maxParticipants = 0`. -/
def badMaxInput : CreateRoomInput :=
  { name := "demo-room", type := RoomType.publicRoom, password := none,
    maxParticipants := 0, ownerId := 1 }

/-- Witness for C8's amended statement. -/
theorem createRoom_invalid_config_witness :
    createRoom [] badMaxInput (fun _ => 0) 0
      = Except.error CreateRoomError.validationFailed :=
  (createRoom_invalid_config [] badMaxInput (fun _ => 0) 0 (Or.inl (by decide))).1

/-- C9 counterexample: a room produced by CreateRoom that is
password-protected yet stores no password, breaking the "if and only if". -/
theorem password_iff_protected_cex :
    createRoom [] ppNoPwInput (fun _ => 0) 5
      = Except.ok (addParticipant (newRoomDoc ppNoPwInput (fun _ => 0)) 7 Role.owner 5,
          [addParticipant (newRoomDoc ppNoPwInput (fun _ => 0)) 7 Role.owner 5])
    ∧ (addParticipant (newRoomDoc ppNoPwInput (fun _ => 0)) 7 Role.owner 5).type
        = RoomType.passwordProtected
    ∧ (addParticipant (newRoomDoc ppNoPwInput (fun _ => 0)) 7 Role.owner 5).password
        = none :=
  ⟨rfl, rfl, rfl⟩

theorem applyOps_password (r : Room) (ops : List Op) :
    (applyOps r ops).password = r.password := by
  induction ops generalizing r with
  | nil => rfl
  | cons op ops ih =>
    show (applyOps (applyOp r op) ops).password = r.password
    rw [ih, applyOp_password]

theorem applyOps_type (r : Room) (ops : List Op) :
    (applyOps r ops).type = r.type := by
  induction ops generalizing r with
  | nil => rfl
  | cons op ops ih =>
    show (applyOps (applyOp r op) ops).type = r.type
    rw [ih, applyOp_type]

/-- C9 amended: a stored password implies the room is password-protected —
public/private rooms are created with none, Join/Leave never touch password
or type, and a password-protected room stores exactly what was supplied at
creation; the converse direction fails when no password was supplied (see
counterexample). -/
theorem password_only_if_protected (store : List Room) (i : CreateRoomInput)
    (rand : Nat → Nat) (now : Nat) (room : Room) (store2 : List Room) (ops : List Op)
    (h : createRoom store i rand now = Except.ok (room, store2)) :
    room.type = i.type
    ∧ (room.type ≠ RoomType.passwordProtected → room.password = none)
    ∧ (room.type = RoomType.passwordProtected → room.password = i.password)
    ∧ (applyOps room ops).password = room.password
    ∧ (applyOps room ops).type = room.type := by
  rcases createRoom_ok store i rand now room store2 h with ⟨hroom, -, -, -, -⟩
  have htype : room.type = i.type := by rw [hroom]; rfl
  refine ⟨htype, ?_, ?_, applyOps_password room ops, applyOps_type room ops⟩
  · intro hne
    rw [hroom]
    show (match i.type with
      | RoomType.passwordProtected => i.password
      | _ => none) = none
    cases hty : i.type with
    | publicRoom => rfl
    | privateRoom => rfl
    | passwordProtected => exact absurd (htype.trans hty) hne
  · intro hpp
    rw [hroom]
    show (match i.type with
      | RoomType.passwordProtected => i.password
      | _ => none) = i.password
    rw [htype.symm.trans hpp]

/-- Witness for C9's amended statement at a concrete private room. -/
theorem password_only_if_protected_witness :
    (addParticipant (newRoomDoc
        { name := "quiet-room", type := RoomType.privateRoom, password := some "abcd",
          maxParticipants := 5, ownerId := 3 } (fun _ => 0)) 3 Role.owner 0).password
      = none :=
  (password_only_if_protected []
    { name := "quiet-room", type := RoomType.privateRoom, password := some "abcd",
      maxParticipants := 5, ownerId := 3 } (fun _ => 0) 0 _ _ [] rfl).2.1 (by decide)

/-- A second CreateRoom body reusing `roomA`'s display name. -/
def dupInput : CreateRoomInput :=
  { name := "demo-room", type := RoomType.publicRoom, password := none,
    maxParticipants := 50, ownerId := 2 }

/-- C10: when some stored room already carries the requested display name,
CreateRoom fails — with `ROOM_NAME_EXISTS` whenever the earlier validation
layers pass — and never creates a room, so display names are globally
unique. -/
theorem createRoom_duplicate_name (store : List Room) (i : CreateRoomInput)
    (rand : Nat → Nat) (now : Nat)
    (hdup : store.any (fun r => r.name == i.name) = true) :
    (createRoomValidation i = true → validateRoomName i.name = true →
      createRoom store i rand now = Except.error CreateRoomError.roomNameExists)
    ∧ ∀ room store2, createRoom store i rand now ≠ Except.ok (room, store2) := by
  constructor
  · intro hv hn
    unfold createRoom
    rw [if_neg (by simp [hv]), if_neg (by simp [hn]), if_pos hdup]
  · intro room store2 hc
    rcases createRoom_ok store i rand now room store2 hc with ⟨-, -, -, -, hfalse⟩
    rw [hdup] at hfalse
    exact Bool.noConfusion hfalse

/-- Witness for C10 against a one-room store. -/
theorem createRoom_duplicate_name_witness :
    createRoom [roomA] dupInput (fun _ => 0) 0
      = Except.error CreateRoomError.roomNameExists :=
  (createRoom_duplicate_name [roomA] dupInput (fun _ => 0) 0 (by decide)).1
    (by decide) (by decide)

end NearYou
